import Mathlib

/-
Verification of the scraping pipeline in JBU_Dashboard.py.

The development shallowly embeds the pipeline:
 * Python dicts become association lists (`Dict`) with Python's
   insertion semantics (update in place if the key exists, else append).
 * Python exceptions become an `Exc` value; fallible code runs in
   `Except Exc`; a `try/except` block becomes a `match` on the
   `Except` value of the embedded block.
 * BeautifulSoup queries are abstracted as oracle fields of a `Page`
   structure: each field records the outcome (result or raised
   exception) of one heuristic's document traversal, exactly at the
   granularity of the source's try/except boundaries.
 * The network is an oracle `Net` giving, per URL, the outcome of each
   HTTP attempt, the stream of random draws, and the parsed page for
   fetched content.
-/

set_option autoImplicit false

/-- Python exception values, distinguished only as far as the code's
except clauses distinguish them: `requestError` covers
`requests.exceptions.Timeout` and `requests.exceptions.RequestException`,
`runtimeError` covers `RuntimeError`, `otherError` everything else. -/
inductive Exc where
  | requestError (msg : String)
  | runtimeError (msg : String)
  | otherError (msg : String)
deriving DecidableEq

/-- A Python `dict` with `String` keys, as an association list in key
insertion order. The source only builds dicts with unique keys; lemmas
take a `Nodup` hypothesis on the key list where they need it. -/
abbrev Dict (V : Type) := List (String × V)

/-- Lookup: `d.get(k)` / `d[k]`, returning the first (unique) binding. -/
def dget {V : Type} : Dict V → String → Option V
  | [], _ => none
  | kv :: rest, k => if kv.1 = k then some kv.2 else dget rest k

/-- Membership test: `k in d`. -/
def dmem {V : Type} : Dict V → String → Bool
  | [], _ => false
  | kv :: rest, k => if kv.1 = k then true else dmem rest k

/-- Assignment `d[k] = v`: update in place when the key exists
(preserving its position), append otherwise — Python dict semantics. -/
def dset {V : Type} (d : Dict V) (k : String) (v : V) : Dict V :=
  if dmem d k then d.map (fun kv => if kv.1 = k then (k, v) else kv) else d ++ [(k, v)]

/-- The key list of a dict. -/
def dkeys {V : Type} (d : Dict V) : List String := d.map Prod.fst

theorem dget_append_left {V : Type} {d d2 : Dict V} {k : String} {v : V}
    (h : dget d k = some v) : dget (d ++ d2) k = some v := by
  induction d with
  | nil => simp [dget] at h
  | cons kv rest ih =>
    simp only [dget, List.cons_append] at h ⊢
    split at h
    · simp_all
    · simp only [*, if_neg]
      exact ih h

theorem dget_append_right {V : Type} {d : Dict V} {k : String}
    (h : dmem d k = false) (d2 : Dict V) : dget (d ++ d2) k = dget d2 k := by
  induction d with
  | nil => simp
  | cons kv rest ih =>
    simp only [dmem] at h
    split at h
    · simp at h
    · simp only [List.cons_append, dget, if_neg (by assumption)]
      exact ih h

theorem dmem_append {V : Type} (d d2 : Dict V) (k : String) :
    dmem (d ++ d2) k = (dmem d k || dmem d2 k) := by
  induction d with
  | nil => simp [dmem]
  | cons kv rest ih =>
    simp only [List.cons_append, dmem]
    split <;> simp [*]

theorem dmem_false_of_dget_none {V : Type} {d : Dict V} {k : String}
    (h : dget d k = none) : dmem d k = false := by
  induction d with
  | nil => simp [dmem]
  | cons kv rest ih =>
    simp only [dget] at h
    split at h
    · simp at h
    · simp only [dmem, if_neg (by assumption)]
      exact ih h

theorem dget_none_of_dmem_false {V : Type} {d : Dict V} {k : String}
    (h : dmem d k = false) : dget d k = none := by
  induction d with
  | nil => simp [dget]
  | cons kv rest ih =>
    simp only [dmem] at h
    split at h
    · simp at h
    · simp only [dget, if_neg (by assumption)]
      exact ih h

theorem dset_of_dmem_false {V : Type} {d : Dict V} {k : String} {v : V}
    (h : dmem d k = false) : dset d k v = d ++ [(k, v)] := by
  simp [dset, h]

/-- In a dict with unique keys, looking up the key of one of its
entries returns that entry's value. -/
theorem dget_of_mem_nodup {V : Type} {d : Dict V} {kv : String × V}
    (hnd : (dkeys d).Nodup) (hmem : kv ∈ d) : dget d kv.1 = some kv.2 := by
  induction d with
  | nil => simp at hmem
  | cons kv0 rest ih =>
    simp only [dkeys, List.map_cons, List.nodup_cons] at hnd
    rcases List.mem_cons.mp hmem with h | h
    · subst h
      simp [dget]
    · have hne : kv0.1 ≠ kv.1 := by
        intro he
        exact hnd.1 (he ▸ List.mem_map_of_mem Prod.fst h)
      simp only [dget, if_neg hne]
      exact ih hnd.2 h

theorem dmem_of_mem {V : Type} {d : Dict V} {kv : String × V}
    (hmem : kv ∈ d) : dmem d kv.1 = true := by
  induction d with
  | nil => simp at hmem
  | cons kv0 rest ih =>
    rcases List.mem_cons.mp hmem with h | h
    · subst h; simp [dmem]
    · simp only [dmem]
      split
      · rfl
      · exact ih h

-- Constants from JBU_Dashboard.py, lines 17-53.

/-- Base URL constant (line 18). -/
def BASE_URL : String := "https://www.jbu.edu"

/-- Per-attempt timeout in seconds (line 19); diagnostic only in this model. -/
def TIMEOUT : Nat := 20

/-- Retry count constant (line 20). -/
def MAX_RETRIES : Nat := 5

/-- Base backoff delay in seconds (line 21). -/
def RETRY_DELAY : ℚ := 3

/-- Fallback mission narrative (line 25). -/
def FALLBACK_mission : String :=
  "To provide Christ-centered education that prepares people to honor God and serve others by developing their intellectual, spiritual, and professional lives."

/-- Fallback core-values list (lines 26-27). -/
def FALLBACK_values : List String :=
  ["Christ-centered", "Transformational Education", "Whole Person Preparation",
   "Servant Leadership", "Global Engagement"]

/-- Fallback colleges mapping (lines 28-37). -/
def FALLBACK_colleges : Dict Nat :=
  [("College of Bible & Ministry", 8),
   ("College of Business", 12),
   ("College of Education", 5),
   ("College of Engineering", 6),
   ("College of Liberal Arts", 9),
   ("College of Natural Sciences", 7),
   ("Division of Communication", 5),
   ("Division of Music", 4)]

/-- Fallback statistics mapping (lines 38-43). -/
def FALLBACK_stats : Dict String :=
  [("Total Enrollment", "2,343"),
   ("Student-Faculty Ratio", "14:1"),
   ("Undergraduate Programs", "50+"),
   ("Graduate Programs", "18")]

/-- Pool of client-identity strings (lines 47-53). -/
def USER_AGENTS : List String :=
  ["Mozilla/5.0 (Windows NT 10.0; Win64; x64) AppleWebKit/537.36 (KHTML, like Gecko) Chrome/91.0.4472.124 Safari/537.36",
   "Mozilla/5.0 (Macintosh; Intel Mac OS X 10_15_7) AppleWebKit/605.1.15 (KHTML, like Gecko) Version/14.1.1 Safari/605.1.15",
   "Mozilla/5.0 (Windows NT 10.0; Win64; x64; rv:89.0) Gecko/20100101 Firefox/89.0",
   "Mozilla/5.0 (X11; Linux x86_64) AppleWebKit/537.36 (KHTML, like Gecko) Chrome/92.0.4515.107 Safari/537.36",
   "Mozilla/5.0 (compatible; Googlebot/2.1; +http://www.google.com/bot.html)"]

-- Fetcher: fetch_webpage (lines 55-80).

/-- Oracle describing the network behaviour and random stream seen by
one `fetch_webpage(url)` call: `attemptOutcome a` is the outcome of
the HTTP request of attempt `a` (0-based) — content on success, the
raised `requests` exception on failure; `uaDraw k` is the `k`-th draw
made by `random.choice` (as an index into the pool); `jitter a` is the
value drawn by `random.uniform(0, 1)` in the sleep after attempt `a`.
The source caches `fetch_webpage` per URL (`st.cache_data`), so one
oracle per URL is faithful. -/
structure FetchEnv where
  attemptOutcome : Nat → Except Exc String
  uaDraw : Nat → Nat
  jitter : Nat → ℚ

/-- Trace of one `fetch_webpage` call: the result (content, `None`, or
raised exception), the User-Agent string sent on each performed
attempt, and the durations of the backoff sleeps in order. -/
structure FetchRun where
  result : Except Exc (Option String)
  uas : List String
  sleeps : List ℚ

/-- Message of the exception produced by the bare `raise` on line 78:
it executes after the `except` block of the same iteration has already
exited, so no exception is active and Python raises a fresh
`RuntimeError` instead of the last fetch error. -/
def NO_ACTIVE_EXC : Exc := Exc.runtimeError "No active exception to reraise"

/-- Duration of the backoff sleep after failed attempt `a` (0-based),
line 73: `RETRY_DELAY * (attempt + 1) + random.uniform(0, 1)`. -/
def sleepFormula (env : FetchEnv) (a : Nat) : ℚ :=
  RETRY_DELAY * ((a : ℚ) + 1) + env.jitter a

/-- Loop body of `fetch_webpage` (lines 60-78) over the remaining
attempt indices of `range(retries)`. `ua` is the single User-Agent
chosen on line 58, before the loop. A failed attempt with a non-empty
tail sleeps `RETRY_DELAY * (attempt + 1) + jitter` (line 73) and
retries; a failed last attempt hits the bare `raise` (line 78); an
exhausted range returns `None` (line 80, reachable only for
`retries = 0`). -/
def fetchLoop (env : FetchEnv) (ua : String) : List Nat → FetchRun
  | [] => ⟨.ok none, [], []⟩
  | a :: rest =>
    match env.attemptOutcome a with
    | .ok content => ⟨.ok (some content), [ua], []⟩
    | .error _ =>
      match rest with
      | [] => ⟨.error NO_ACTIVE_EXC, [ua], []⟩
      | b :: brest =>
        let r := fetchLoop env ua (b :: brest)
        ⟨r.result, ua :: r.uas, sleepFormula env a :: r.sleeps⟩

/-- The User-Agent chosen on line 58: one `random.choice(USER_AGENTS)`
draw made before the retry loop starts. -/
def chosenUA (env : FetchEnv) : String :=
  USER_AGENTS.getD (env.uaDraw 0 % USER_AGENTS.length) ""

/-- Full trace of `fetch_webpage(url, retries)` under oracle `env`. -/
def fetchRun (env : FetchEnv) (retries : Nat) : FetchRun :=
  fetchLoop env (chosenUA env) (List.range retries)

/-- When every attempt in the (non-empty) remaining range fails, the
loop ends in the bare `raise` of line 78, producing `NO_ACTIVE_EXC` —
not the last observed fetch error. -/
theorem fetchLoop_allFail (env : FetchEnv) (ua : String) :
    ∀ l : List Nat, l ≠ [] → (∀ a ∈ l, ∃ e, env.attemptOutcome a = .error e) →
      (fetchLoop env ua l).result = .error NO_ACTIVE_EXC := by
  intro l
  induction l with
  | nil => intro h; exact absurd rfl h
  | cons a rest ih =>
    intro _ hfail
    obtain ⟨e, he⟩ := hfail a (List.mem_cons_self a rest)
    match hr : rest with
    | [] => simp [fetchLoop, he]
    | b :: brest =>
      have := ih (by simp) (fun x hx => hfail x (List.mem_cons_of_mem a hx))
      simp [fetchLoop, he, this]

/-- Every User-Agent string appearing in a fetch trace is the one
chosen before the loop. -/
theorem fetchLoop_uas_const (env : FetchEnv) (ua : String) :
    ∀ l : List Nat, ∀ u ∈ (fetchLoop env ua l).uas, u = ua := by
  intro l
  induction l with
  | nil => intro u hu; simp [fetchLoop] at hu
  | cons a rest ih =>
    intro u hu
    match hr : rest with
    | [] =>
      subst hr
      simp only [fetchLoop] at hu
      split at hu <;> simp_all
    | b :: brest =>
      subst hr
      simp only [fetchLoop] at hu
      split at hu
      · simp at hu; exact hu
      · simp only [List.mem_cons] at hu
        rcases hu with h | h
        · exact h
        · exact ih u h

/-- When every attempt of `range retries` fails, the sleep trace
matches the source's formula: the `i`-th sleep (before attempt
`i + 1`) lasts `RETRY_DELAY * (i + 1) + jitter i`, and there are
`retries - 1` sleeps. -/
theorem fetchLoop_sleeps_allFail (env : FetchEnv) (ua : String) :
    ∀ l : List Nat, (∀ a ∈ l, ∃ e, env.attemptOutcome a = .error e) →
      (fetchLoop env ua l).sleeps = l.dropLast.map (sleepFormula env) := by
  intro l
  induction l with
  | nil => intro _; simp [fetchLoop]
  | cons a rest ih =>
    intro hfail
    obtain ⟨e, he⟩ := hfail a (List.mem_cons_self a rest)
    match hr : rest with
    | [] => simp [fetchLoop, he]
    | b :: brest =>
      have := ih (fun x hx => hfail x (List.mem_cons_of_mem a hx))
      simp [fetchLoop, he, this, List.dropLast]

-- Parsed documents and the network oracle.

/-- One item of a college/department listing (lines 310-326 and
351-365): `nameElem` is `name_elem.get_text(strip=True)` when a name
element was found; `programsList` is `len(programs)` when the
structural `programs_list` container was found; `textMatch` is the
number captured by the `(\d+)\s+(programs|majors|degrees)` search when
it matches the item's text. -/
structure CollegeItem where
  nameElem : Option String
  programsList : Option Nat
  textMatch : Option Nat
deriving DecidableEq

/-- A parsed document (BeautifulSoup tree), abstracted as the outcomes
of the heuristic queries the extractors run on it. Each field is the
outcome of one heuristic's traversal: `.ok` with its finding, or
`.error` when the traversal raises. The fields follow the source:
`missionM1` is the ID/class container search with its length/regex
checks (lines 87-100), `missionM2` the header-proximity search (lines
103-108); `valuesM1`/`valuesM2` likewise for the list field (lines
154-173), where `some vs` is the non-empty trimmed list the method
returns; `statsM1` is the label/value pairs found by the stats-section
scan in document order (lines 220-235), `statsM2` the pairs from the
facts-table scan (lines 238-248); `collegeItems` the items of the
college listing scan (lines 304-309); `findLink` the navigational-link
search for a page name (lines 113, 253, 336), `some href` when a link
with an `href` attribute matches. On secondary pages the source reruns
the same queries (with a slightly narrower header vocabulary), which
the same fields model for those pages. -/
structure Page where
  missionM1 : Except Exc (Option String)
  missionM2 : Except Exc (Option String)
  valuesM1 : Except Exc (Option (List String))
  valuesM2 : Except Exc (Option (List String))
  statsM1 : Except Exc (List (String × String))
  statsM2 : Except Exc (List (String × String))
  collegeItems : Except Exc (List CollegeItem)
  findLink : String → Except Exc (Option String)

/-- The world one scrape runs against: `envFor url` is the network
behaviour of `fetch_webpage(url)` (memoized per URL by
`st.cache_data`), and `pageOf content` the result of
`BeautifulSoup(content, "html.parser")`. -/
structure Net where
  envFor : String → FetchEnv
  pageOf : String → Page

/-- Result of `fetch_webpage(url)` with the default `MAX_RETRIES`:
content on success, `None` only for a zero retry budget, or the raised
exception. -/
def fetch_webpage (net : Net) (url : String) : Except Exc (Option String) :=
  (fetchRun (net.envFor url) MAX_RETRIES).result

/-- Python's `str.startswith`, written on the character lists so that
it evaluates by reduction. -/
def strStartsWith (s pre : String) : Bool :=
  pre.data.isPrefixOf s.data

/-- URL normalization used before each secondary fetch (lines 116-117,
257-258, 340-341): prefix relative links with the base origin. -/
def absUrl (href : String) : String :=
  if strStartsWith href "http" then href else BASE_URL ++ href

/-- Fetch and parse a secondary page: `content = fetch_webpage(url)`
followed by the `if content:` truthiness guard (`None` or empty bytes
skip parsing) and `BeautifulSoup(content, ...)`. Raises whatever
`fetch_webpage` raises. -/
def fetchParsed (net : Net) (url : String) : Except Exc (Option Page) := do
  match ← fetch_webpage net url with
  | none => return none
  | some c => if c = "" then return none else return some (net.pageOf c)

-- extract_mission (lines 82-147).

/-- Mission search rerun on the about page (lines 124-141): ID/class
search first, then the header search. -/
def aboutMission (page : Page) : Except Exc (Option String) := do
  match ← page.missionM1 with
  | some s => return some s
  | none =>
    match ← page.missionM2 with
    | some s => return some s
    | none => return none

/-- Embedding of `extract_mission`: method 1 (ID/class containers),
method 2 (header proximity), method 3 (about page, whose fetch and
traversal sit inside `try/except`), then the fallback. Only method 3
is exception-protected. -/
def extract_mission (net : Net) (soup : Page) (fallback : String) : Except Exc String := do
  let m1 ← soup.missionM1
  match m1 with
  | some s => return s
  | none =>
    let m2 ← soup.missionM2
    match m2 with
    | some s => return s
    | none =>
      let lk ← soup.findLink "about"
      match lk with
      | none => return fallback
      | some href =>
        let attempt : Except Exc (Option String) := do
          match ← fetchParsed net (absUrl href) with
          | some page => aboutMission page
          | none => return none
        match attempt with
        | .ok (some s) => return s
        | _ => return fallback

-- extract_values (lines 149-212).

/-- Values search rerun on the about page (lines 189-206). -/
def aboutValues (page : Page) : Except Exc (Option (List String)) := do
  match ← page.valuesM1 with
  | some vs => return some vs
  | none =>
    match ← page.valuesM2 with
    | some vs => return some vs
    | none => return none

/-- Embedding of `extract_values`, structurally identical to
`extract_mission` but producing the trimmed non-empty list. -/
def extract_values (net : Net) (soup : Page) (fallback : List String) :
    Except Exc (List String) := do
  let m1 ← soup.valuesM1
  match m1 with
  | some vs => return vs
  | none =>
    let m2 ← soup.valuesM2
    match m2 with
    | some vs => return vs
    | none =>
      let lk ← soup.findLink "about"
      match lk with
      | none => return fallback
      | some href =>
        let attempt : Except Exc (Option (List String)) := do
          match ← fetchParsed net (absUrl href) with
          | some page => aboutValues page
          | none => return none
        match attempt with
        | .ok (some vs) => return vs
        | _ => return fallback

-- extract_stats (lines 214-296).

/-- Candidate secondary page names for statistics (line 252). -/
def statsCandidates : List String := ["about", "facts", "quick-facts", "at-a-glance"]

/-- Record label/value pairs found by the primary-page scans (lines
234 and 247): plain dict assignment, later pairs overwrite earlier
ones of the same label. -/
def putStats (items : List (String × String)) (stats : Dict String) : Dict String :=
  items.foldl (fun acc kv => dset acc kv.1 kv.2) stats

/-- Record pairs found on a secondary page (lines 277-278): a pair is
added only when its label is not already present. -/
def putNewStats (items : List (String × String)) (stats : Dict String) : Dict String :=
  items.foldl (fun acc kv => if dmem acc kv.1 then acc else dset acc kv.1 kv.2) stats

/-- Body of the `try` block of one stats secondary-page iteration
(lines 255-279): fetch the candidate page, rescan its stats sections,
and add the labels not already present. -/
def statsAttempt (net : Net) (st1 : Dict String) (url : String) :
    Except Exc (Dict String) := do
  match ← fetchParsed net url with
  | none => return st1
  | some page =>
    let items ← page.statsM1
    return putNewStats items st1

/-- One iteration of the secondary-page loop of `extract_stats` (lines
252-281), on state (stats so far, URLs passed to `fetch_webpage` so
far). The link search (line 253) is outside the `try`; `statsAttempt`
is inside it, so its exceptions are absorbed and the loop moves on.
The second component is ghost instrumentation recording each URL for
which `fetch_webpage` is called. -/
def statsStep (net : Net) (soup : Page) (st : Dict String × List String)
    (pageName : String) : Except Exc (Dict String × List String) := do
  match ← soup.findLink pageName with
  | none => return st
  | some href =>
    let url := absUrl href
    match statsAttempt net st.1 url with
    | .ok s => return (s, st.2 ++ [url])
    | .error _ => return (st.1, st.2 ++ [url])

/-- Extraction phase of `extract_stats` (lines 217-281): section scan,
table scan, then the secondary-page loop over every candidate.
Returns the extracted dict and the ghost list of secondary URLs
fetched. -/
def statsScrapedI (net : Net) (soup : Page) :
    Except Exc (Dict String × List String) := do
  let items1 ← soup.statsM1
  let items2 ← soup.statsM2
  let s2 := putStats items2 (putStats items1 [])
  statsCandidates.foldlM (statsStep net soup) (s2, [])

/-- Merge phase of `extract_stats` (lines 284-294): every fallback key
gets the extracted value when present, the fallback value otherwise;
then extracted labels outside the fallback set are appended. -/
def finalStats (stats fallback : Dict String) : Dict String :=
  let fs := fallback.foldl (fun acc kv => dset acc kv.1 ((dget stats kv.1).getD kv.2)) []
  stats.foldl (fun acc kv => if dmem acc kv.1 then acc else dset acc kv.1 kv.2) fs

/-- Embedding of `extract_stats` with the ghost fetched-URL list. -/
def extract_statsI (net : Net) (soup : Page) (fallback : Dict String) :
    Except Exc (Dict String × List String) := do
  let (stats, fetched) ← statsScrapedI net soup
  return (finalStats stats fallback, fetched)

/-- Embedding of `extract_stats` as called by `scrape_jbu_data`. -/
def extract_stats (net : Net) (soup : Page) (fallback : Dict String) :
    Except Exc (Dict String) :=
  (extract_statsI net soup fallback).map Prod.fst

-- extract_colleges (lines 298-392).

/-- Candidate secondary page names for colleges (line 335). -/
def collegeCandidates : List String := ["academics", "programs", "colleges", "departments"]

/-- Program count of one listing item (lines 316-326): the length of
the structural programs list when that container is found, otherwise
0; when that leaves 0, the count captured from the item's text, if
any, otherwise 0. -/
def itemCount (it : CollegeItem) : Nat :=
  let c := it.programsList.getD 0
  if c = 0 then it.textMatch.getD 0 else c

/-- Record one listing item (lines 311-331): skip items without a
(non-empty) name; keep the highest count seen for a repeated name. -/
def processItem (colleges : Dict Nat) (it : CollegeItem) : Dict Nat :=
  match it.nameElem with
  | none => colleges
  | some name =>
    if name = "" then colleges
    else
      let cnt := itemCount it
      match dget colleges name with
      | none => dset colleges name cnt
      | some c => if cnt > c then dset colleges name cnt else colleges

/-- Body of the `try` block of one colleges secondary-page iteration
(lines 338-370): fetch the candidate page, rescan its college
listings, and merge the items with the keep-highest-count policy. -/
def collegesAttempt (net : Net) (st1 : Dict Nat) (url : String) :
    Except Exc (Dict Nat) := do
  match ← fetchParsed net url with
  | none => return st1
  | some page =>
    let items ← page.collegeItems
    return items.foldl processItem st1

/-- One iteration of the secondary-page loop of `extract_colleges`
(lines 335-373), mirroring `statsStep`. -/
def collegesStep (net : Net) (soup : Page) (st : Dict Nat × List String)
    (pageName : String) : Except Exc (Dict Nat × List String) := do
  match ← soup.findLink pageName with
  | none => return st
  | some href =>
    let url := absUrl href
    match collegesAttempt net st.1 url with
    | .ok s => return (s, st.2 ++ [url])
    | .error _ => return (st.1, st.2 ++ [url])

/-- Extraction phase of `extract_colleges` (lines 301-373). -/
def collegesScrapedI (net : Net) (soup : Page) :
    Except Exc (Dict Nat × List String) := do
  let items ← soup.collegeItems
  let c1 := items.foldl processItem []
  collegeCandidates.foldlM (collegesStep net soup) (c1, [])

/-- Merge phase of `extract_colleges` (lines 376-392): extracted
entries first, then fallback entries for names not extracted; if the
merged dict is empty, the fallback dict is returned wholesale. -/
def finalColleges (colleges fallback : Dict Nat) : Dict Nat :=
  let fc := colleges.foldl (fun acc kv => dset acc kv.1 kv.2) []
  let fc := fallback.foldl (fun acc kv => if dmem acc kv.1 then acc else dset acc kv.1 kv.2) fc
  if fc.isEmpty then fallback else fc

/-- Embedding of `extract_colleges` with the ghost fetched-URL list. -/
def extract_collegesI (net : Net) (soup : Page) (fallback : Dict Nat) :
    Except Exc (Dict Nat × List String) := do
  let (colleges, fetched) ← collegesScrapedI net soup
  return (finalColleges colleges fallback, fetched)

/-- Embedding of `extract_colleges` as called by `scrape_jbu_data`. -/
def extract_colleges (net : Net) (soup : Page) (fallback : Dict Nat) :
    Except Exc (Dict Nat) :=
  (extract_collegesI net soup fallback).map Prod.fst

-- scrape_jbu_data (lines 395-429).

/-- The four-field scrape result. -/
structure ScrapeData where
  mission : String
  values : List String
  stats : Dict String
  colleges : Dict Nat
deriving DecidableEq

/-- The full fallback dataset (lines 24-44) as a `ScrapeData`. -/
def FALLBACK_DATA : ScrapeData :=
  ⟨FALLBACK_mission, FALLBACK_values, FALLBACK_stats, FALLBACK_colleges⟩

/-- The `using_fallback` computation (lines 418-421): mission equal to
the fallback mission, or values equal to the fallback list, or some
fallback stats key whose final value equals its fallback value, or
some fallback college name whose final count equals its fallback
count. -/
def usingFallbackCalc (d : ScrapeData) : Bool :=
  (d.mission == FALLBACK_mission) ||
  (d.values == FALLBACK_values) ||
  (FALLBACK_stats.any fun kv => dget d.stats kv.1 == dget FALLBACK_stats kv.1) ||
  (FALLBACK_colleges.any fun kv => dget d.colleges kv.1 == dget FALLBACK_colleges kv.1)

/-- Body of the `try` block of `scrape_jbu_data` (lines 400-425):
fetch the primary page (falsy content returns the full fallback pair,
line 403-405), run the four extractors, compute `using_fallback`. Any
exception escaping this body is caught by the handler modelled in
`scrape_jbu_data`. -/
def scrapeCore (net : Net) : Except Exc (ScrapeData × Bool) := do
  let content ← fetch_webpage net BASE_URL
  match content with
  | none => return (FALLBACK_DATA, true)
  | some c =>
    if c = "" then return (FALLBACK_DATA, true)
    else
      let soup := net.pageOf c
      let mission ← extract_mission net soup FALLBACK_mission
      let values ← extract_values net soup FALLBACK_values
      let stats ← extract_stats net soup FALLBACK_stats
      let colleges ← extract_colleges net soup FALLBACK_colleges
      let d : ScrapeData := ⟨mission, values, stats, colleges⟩
      return (d, usingFallbackCalc d)

/-- Embedding of `scrape_jbu_data`: the `except Exception` handler
(lines 427-429) turns any escaping exception into the full fallback
pair, so every call yields a complete result. -/
def scrape_jbu_data (net : Net) : ScrapeData × Bool :=
  match scrapeCore net with
  | .ok r => r
  | .error _ => (FALLBACK_DATA, true)

-- Concrete oracles used by witnesses and counterexamples.

/-- A parsed page on which every heuristic finds nothing and no
navigational link matches. -/
def emptyPage : Page :=
  { missionM1 := .ok none, missionM2 := .ok none,
    valuesM1 := .ok none, valuesM2 := .ok none,
    statsM1 := .ok [], statsM2 := .ok [],
    collegeItems := .ok [],
    findLink := fun _ => .ok none }

/-- Network behaviour whose every attempt raises a request timeout. -/
def failEnv : FetchEnv :=
  { attemptOutcome := fun _ => .error (.requestError "timed out"),
    uaDraw := fun _ => 0, jitter := fun _ => 0 }

/-- Network behaviour succeeding on the first attempt. -/
def okEnv : FetchEnv :=
  { attemptOutcome := fun _ => .ok "content",
    uaDraw := fun _ => 0, jitter := fun _ => 0 }

/-- A world where every URL is unreachable and any parsed page is
`emptyPage`. -/
def downNet : Net := { envFor := fun _ => failEnv, pageOf := fun _ => emptyPage }

/-- A world where every URL responds immediately with content parsing
to `emptyPage`. -/
def upNet : Net := { envFor := fun _ => okEnv, pageOf := fun _ => emptyPage }

-- Claim C1.

/-- C1: when fetching the primary base URL fails on all retry
attempts, `scrape_jbu_data` returns exactly `(FALLBACK_DATA, True)`;
it never surfaces the failure, because the model of the `except
Exception` handler is total by construction. -/
theorem c1_total_primary_failure_returns_fallback (net : Net)
    (h : ∀ a, a < MAX_RETRIES →
      ∃ e, (net.envFor BASE_URL).attemptOutcome a = Except.error e) :
    scrape_jbu_data net = (FALLBACK_DATA, true) := by
  have hfail : fetch_webpage net BASE_URL = .error NO_ACTIVE_EXC := by
    unfold fetch_webpage fetchRun
    apply fetchLoop_allFail
    · simp [MAX_RETRIES]
    · intro a ha
      exact h a (List.mem_range.mp ha)
  unfold scrape_jbu_data scrapeCore
  simp [hfail, Bind.bind, Except.bind]

/-- Witness for C1 at a concrete world whose every attempt times out. -/
theorem c1_witness : scrape_jbu_data downNet = (FALLBACK_DATA, true) :=
  c1_total_primary_failure_returns_fallback downNet
    (fun _ _ => ⟨.requestError "timed out", rfl⟩)

-- Claim C7.

/-- C7 (documents the code bug): when every attempt fails,
`fetch_webpage` does not re-raise the last observed request error.
The bare `raise` on line 78 sits after the `except` block of its
iteration has exited, so Python raises
`RuntimeError("No active exception to reraise")` instead — despite the
line's own comment promising the last exception. -/
theorem c7_exhausted_retries_raise_runtime_error (env : FetchEnv) (retries : Nat)
    (hr : retries ≠ 0)
    (h : ∀ a, a < retries → ∃ e, env.attemptOutcome a = Except.error e) :
    (fetchRun env retries).result = .error NO_ACTIVE_EXC := by
  unfold fetchRun
  apply fetchLoop_allFail
  · simp [hr]
  · intro a ha
    exact h a (List.mem_range.mp ha)

/-- Witness for C7: five timed-out attempts end in the RuntimeError,
not in the last timeout. -/
theorem c7_witness : (fetchRun failEnv MAX_RETRIES).result = .error NO_ACTIVE_EXC :=
  c7_exhausted_retries_raise_runtime_error failEnv MAX_RETRIES (by decide)
    (fun _ _ => ⟨.requestError "timed out", rfl⟩)

-- Claim C8.

/-- When the first `k` attempts of the remaining range fail and the
range is longer than `k`, the first `k` sleeps follow the source's
formula in order. -/
theorem fetchLoop_sleeps_failPrefix (env : FetchEnv) (ua : String) :
    ∀ (l : List Nat) (k : Nat), k < l.length →
      (∀ a ∈ l.take k, ∃ e, env.attemptOutcome a = Except.error e) →
      ∃ tail, (fetchLoop env ua l).sleeps = (l.take k).map (sleepFormula env) ++ tail := by
  intro l
  induction l with
  | nil => intro k hk; simp at hk
  | cons x rest ih =>
    intro k hk hfail
    match k with
    | 0 => exact ⟨(fetchLoop env ua (x :: rest)).sleeps, by simp⟩
    | k0 + 1 =>
      obtain ⟨e, he⟩ := hfail x (by simp)
      have hk0 : k0 < rest.length := Nat.lt_of_succ_lt_succ hk
      match rest, hk0, ih with
      | b :: brest, hk0, ih =>
        obtain ⟨tail, htail⟩ := ih k0 hk0 (fun a ha => hfail a (by simp [ha]))
        exact ⟨tail, by simp [fetchLoop, he, htail]⟩

/-- C8: with all attempts up to `j` failing and at least one attempt
remaining after `j`, the `i`-th and `j`-th backoff sleeps both occur,
each equals `RETRY_DELAY * (attempt + 1)` plus its jitter draw from
`[0, 1)`, and the jitter-free components are monotone in the attempt
index. -/
theorem c8_backoff_formula_and_monotonicity (env : FetchEnv) (retries i j : Nat)
    (hfail : ∀ a, a ≤ j → ∃ e, env.attemptOutcome a = Except.error e)
    (hjit : ∀ a, 0 ≤ env.jitter a ∧ env.jitter a < 1)
    (hij : i < j) (hj : j < retries - 1) :
    (fetchRun env retries).sleeps[i]? = some (sleepFormula env i) ∧
    (fetchRun env retries).sleeps[j]? = some (sleepFormula env j) ∧
    sleepFormula env i = RETRY_DELAY * ((i : ℚ) + 1) + env.jitter i ∧
    0 ≤ env.jitter i ∧ env.jitter i < 1 ∧
    sleepFormula env i - env.jitter i ≤ sleepFormula env j - env.jitter j := by
  have hjr : j + 1 < retries := by omega
  obtain ⟨tail, htail⟩ := fetchLoop_sleeps_failPrefix env (chosenUA env)
    (List.range retries) (j + 1)
    (by simpa using hjr)
    (by
      intro a ha
      apply hfail
      rw [List.take_range] at ha
      have := List.mem_range.mp ha
      omega)
  have hrange : (List.range retries).take (j + 1) = List.range (j + 1) := by
    rw [List.take_range]
    congr 1
    omega
  rw [hrange] at htail
  have hget : ∀ m, m < j + 1 →
      (fetchRun env retries).sleeps[m]? = some (sleepFormula env m) := by
    intro m hm
    have hs : (fetchRun env retries).sleeps =
        (List.range (j + 1)).map (sleepFormula env) ++ tail := htail
    rw [hs, List.getElem?_append_left (by simpa using hm), List.getElem?_map]
    simp [List.getElem?_range, hm]
  refine ⟨hget i (by omega), hget j (by omega), rfl, (hjit i).1, (hjit i).2, ?_⟩
  have hle : (i : ℚ) + 1 ≤ (j : ℚ) + 1 := by
    have : (i : ℚ) ≤ (j : ℚ) := by exact_mod_cast hij.le
    linarith
  have hd : (0 : ℚ) ≤ RETRY_DELAY := by norm_num [RETRY_DELAY]
  have := mul_le_mul_of_nonneg_left hle hd
  simp only [sleepFormula]
  linarith

/-- Witness for C8 at the all-timeout world with zero jitter. -/
theorem c8_witness :
    (fetchRun failEnv 5).sleeps[0]? = some (sleepFormula failEnv 0) ∧
    (fetchRun failEnv 5).sleeps[1]? = some (sleepFormula failEnv 1) ∧
    sleepFormula failEnv 0 = RETRY_DELAY * ((0 : ℚ) + 1) + failEnv.jitter 0 ∧
    0 ≤ failEnv.jitter 0 ∧ failEnv.jitter 0 < 1 ∧
    sleepFormula failEnv 0 - failEnv.jitter 0 ≤ sleepFormula failEnv 1 - failEnv.jitter 1 :=
  c8_backoff_formula_and_monotonicity failEnv 5 0 1
    (fun _ _ => ⟨.requestError "timed out", rfl⟩)
    (fun _ => by norm_num [failEnv])
    (by omega) (by omega)

-- Claim C6.

/-- All-timeout network behaviour whose random draws are pairwise
distinct, so a per-attempt choice would rotate through the pool. -/
def distinctDrawEnv : FetchEnv :=
  { attemptOutcome := fun _ => .error (.requestError "timed out"),
    uaDraw := fun k => k, jitter := fun _ => 0 }

/-- The identity choice C6 describes, written from the claim's words
for comparison: attempt `a` consumes its own independent draw from the
pool. The code instead consumes a single draw before the loop. -/
def uaPerAttemptClaim (env : FetchEnv) (a : Nat) : String :=
  USER_AGENTS.getD (env.uaDraw a % USER_AGENTS.length) ""

/-- C6 is false on the code: with distinct draws available, the
User-Agent actually sent on attempt 1 is still the one drawn before
the loop, and differs from the string an independent per-attempt
choice would have used for attempt 1. -/
theorem c6_counterexample :
    (fetchRun distinctDrawEnv MAX_RETRIES).uas[1]? =
      some (uaPerAttemptClaim distinctDrawEnv 0) ∧
    uaPerAttemptClaim distinctDrawEnv 0 ≠ uaPerAttemptClaim distinctDrawEnv 1 := by
  constructor
  · rfl
  · decide

/-- C6 amended: the User-Agent is drawn once per call, before the
retry loop, and every attempt of that call sends that same string. -/
theorem c6_single_ua_per_call (env : FetchEnv) (retries i j : Nat) (ui uj : String)
    (hi : (fetchRun env retries).uas[i]? = some ui)
    (hj : (fetchRun env retries).uas[j]? = some uj) :
    ui = uj ∧ ui = chosenUA env := by
  have h1 : ui ∈ (fetchLoop env (chosenUA env) (List.range retries)).uas :=
    List.getElem?_mem hi
  have h2 : uj ∈ (fetchLoop env (chosenUA env) (List.range retries)).uas :=
    List.getElem?_mem hj
  have e1 := fetchLoop_uas_const env (chosenUA env) (List.range retries) ui h1
  have e2 := fetchLoop_uas_const env (chosenUA env) (List.range retries) uj h2
  exact ⟨e1.trans e2.symm, e1⟩

/-- Witness for C6's amended statement: attempts 0 and 1 of a concrete
call share the identity string drawn before the loop. -/
theorem c6_witness :
    USER_AGENTS.getD 0 "" = USER_AGENTS.getD 0 "" ∧
    USER_AGENTS.getD 0 "" = chosenUA distinctDrawEnv :=
  c6_single_ua_per_call distinctDrawEnv 5 0 1 (USER_AGENTS.getD 0 "")
    (USER_AGENTS.getD 0 "") rfl rfl

-- Claim C4.

/-- A primary page whose mission ID/class scan raises while
traversing the document. -/
def raisingPage : Page :=
  { emptyPage with missionM1 := .error (.otherError "AttributeError") }

/-- C4 is false on the code: the primary-page heuristics (methods 1
and 2) of each extractor run outside any `try`, so a traversal
exception there escapes the extractor instead of being treated as
"found nothing" — here `extract_mission` re-raises it. -/
theorem c4_counterexample :
    extract_mission downNet raisingPage FALLBACK_mission =
      .error (.otherError "AttributeError") := rfl

/-- A fold of `Except`-valued steps succeeds when every step does. -/
theorem foldlM_ok {α β : Type} (f : β → α → Except Exc β) :
    ∀ l : List α, (∀ b a, a ∈ l → ∃ b2, f b a = .ok b2) →
      ∀ b, ∃ r, l.foldlM f b = .ok r := by
  intro l
  induction l with
  | nil => intro _ b; exact ⟨b, rfl⟩
  | cons x rest ih =>
    intro h b
    obtain ⟨b2, hb2⟩ := h b x (by simp)
    obtain ⟨r, hr⟩ := ih (fun b a ha => h b a (by simp [ha])) b2
    exact ⟨r, by simp [List.foldlM, hb2, Bind.bind, Except.bind, hr]⟩

/-- A stats secondary-page iteration never raises once its link search
answered: the `try/except` around `statsAttempt` absorbs fetch and
traversal failures. -/
theorem statsStep_ok (net : Net) (soup : Page) (c : String) (o : Option String)
    (h : soup.findLink c = .ok o) :
    ∀ st, ∃ r, statsStep net soup st c = .ok r := by
  intro st
  unfold statsStep
  simp only [h, Bind.bind, Except.bind]
  match o with
  | none => exact ⟨st, rfl⟩
  | some href =>
    rcases hA : statsAttempt net st.1 (absUrl href) with e | s
    · exact ⟨(st.1, st.2 ++ [absUrl href]), by simp [hA, pure, Except.pure]⟩
    · exact ⟨(s, st.2 ++ [absUrl href]), by simp [hA, pure, Except.pure]⟩

/-- A colleges secondary-page iteration never raises once its link
search answered. -/
theorem collegesStep_ok (net : Net) (soup : Page) (c : String) (o : Option String)
    (h : soup.findLink c = .ok o) :
    ∀ st, ∃ r, collegesStep net soup st c = .ok r := by
  intro st
  unfold collegesStep
  simp only [h, Bind.bind, Except.bind]
  match o with
  | none => exact ⟨st, rfl⟩
  | some href =>
    rcases hA : collegesAttempt net st.1 (absUrl href) with e | s
    · exact ⟨(st.1, st.2 ++ [absUrl href]), by simp [hA, pure, Except.pure]⟩
    · exact ⟨(s, st.2 ++ [absUrl href]), by simp [hA, pure, Except.pure]⟩

/-- C4 amended: only the secondary-page phase of each extractor is
exception-protected. When the primary-page queries (and link
searches) of an extractor answer without raising, the extractor
returns a value no matter how the secondary fetches and traversals
behave; an exception escaping an extractor is caught one level up in
`scrape_jbu_data`, which then returns the full fallback pair. -/
theorem c4_secondary_exception_containment
    (net : Net) (soup : Page)
    (fm : String) (fv : List String) (fs : Dict String) (fc : Dict Nat)
    (m1 m2 : Option String) (v1 v2 : Option (List String))
    (s1 s2 : List (String × String)) (ci : List CollegeItem)
    (lnk : String → Option String)
    (hm1 : soup.missionM1 = .ok m1) (hm2 : soup.missionM2 = .ok m2)
    (hv1 : soup.valuesM1 = .ok v1) (hv2 : soup.valuesM2 = .ok v2)
    (hs1 : soup.statsM1 = .ok s1) (hs2 : soup.statsM2 = .ok s2)
    (hci : soup.collegeItems = .ok ci)
    (hlk : ∀ c, soup.findLink c = .ok (lnk c)) :
    (∃ r, extract_mission net soup fm = .ok r) ∧
    (∃ r, extract_values net soup fv = .ok r) ∧
    (∃ r, extract_stats net soup fs = .ok r) ∧
    (∃ r, extract_colleges net soup fc = .ok r) ∧
    (∀ n : Net, ∀ e, scrapeCore n = .error e →
      scrape_jbu_data n = (FALLBACK_DATA, true)) := by
  refine ⟨?_, ?_, ?_, ?_, ?_⟩
  · unfold extract_mission
    simp only [hm1, Bind.bind, Except.bind]
    match m1 with
    | some s => exact ⟨s, rfl⟩
    | none =>
      simp only [hm2]
      match m2 with
      | some s => exact ⟨s, rfl⟩
      | none =>
        simp only [hlk "about"]
        match lnk "about" with
        | none => exact ⟨fm, rfl⟩
        | some href =>
          rcases hF : fetchParsed net (absUrl href) with e | op
          · exact ⟨fm, by simp [hF, pure, Except.pure]⟩
          · match op with
            | none => exact ⟨fm, by simp [hF, pure, Except.pure]⟩
            | some page =>
              rcases hM : aboutMission page with e | o
              · exact ⟨fm, by simp [hF, hM, pure, Except.pure]⟩
              · match o with
                | some s => exact ⟨s, by simp [hF, hM, pure, Except.pure]⟩
                | none => exact ⟨fm, by simp [hF, hM, pure, Except.pure]⟩
  · unfold extract_values
    simp only [hv1, Bind.bind, Except.bind]
    match v1 with
    | some vs => exact ⟨vs, rfl⟩
    | none =>
      simp only [hv2]
      match v2 with
      | some vs => exact ⟨vs, rfl⟩
      | none =>
        simp only [hlk "about"]
        match lnk "about" with
        | none => exact ⟨fv, rfl⟩
        | some href =>
          rcases hF : fetchParsed net (absUrl href) with e | op
          · exact ⟨fv, by simp [hF, pure, Except.pure]⟩
          · match op with
            | none => exact ⟨fv, by simp [hF, pure, Except.pure]⟩
            | some page =>
              rcases hV : aboutValues page with e | o
              · exact ⟨fv, by simp [hF, hV, pure, Except.pure]⟩
              · match o with
                | some vs => exact ⟨vs, by simp [hF, hV, pure, Except.pure]⟩
                | none => exact ⟨fv, by simp [hF, hV, pure, Except.pure]⟩
  · obtain ⟨r, hr⟩ := foldlM_ok (statsStep net soup) statsCandidates
      (fun st c hc => statsStep_ok net soup c (lnk c) (hlk c) st)
      (putStats s2 (putStats s1 []), [])
    refine ⟨(finalStats r.1 fs), ?_⟩
    unfold extract_stats extract_statsI statsScrapedI
    simp [hs1, hs2, Bind.bind, Except.bind, hr, pure, Except.pure, Except.map]
  · obtain ⟨r, hr⟩ := foldlM_ok (collegesStep net soup) collegeCandidates
      (fun st c hc => collegesStep_ok net soup c (lnk c) (hlk c) st)
      (ci.foldl processItem [], [])
    refine ⟨(finalColleges r.1 fc), ?_⟩
    unfold extract_colleges extract_collegesI collegesScrapedI
    simp [hci, Bind.bind, Except.bind, hr, pure, Except.pure, Except.map]
  · intro n e he
    unfold scrape_jbu_data
    rw [he]

/-- Witness for C4's amended statement at a concrete page whose
primary queries answer and a world whose every fetch fails. -/
theorem c4_witness :
    (∃ r, extract_mission downNet emptyPage FALLBACK_mission = .ok r) ∧
    (∃ r, extract_values downNet emptyPage FALLBACK_values = .ok r) ∧
    (∃ r, extract_stats downNet emptyPage FALLBACK_stats = .ok r) ∧
    (∃ r, extract_colleges downNet emptyPage FALLBACK_colleges = .ok r) ∧
    (∀ n : Net, ∀ e, scrapeCore n = .error e →
      scrape_jbu_data n = (FALLBACK_DATA, true)) :=
  c4_secondary_exception_containment downNet emptyPage FALLBACK_mission
    FALLBACK_values FALLBACK_stats FALLBACK_colleges none none none none [] [] []
    (fun _ => none) rfl rfl rfl rfl rfl rfl rfl (fun _ => rfl)

-- Claim C5.

/-- Link table of `twoLinksPage`: the first two stats candidates and
the first two college candidates have links. -/
def twoLinks (c : String) : Option String :=
  if c = "about" then some "/about"
  else if c = "facts" then some "/facts"
  else if c = "academics" then some "/academics"
  else if c = "programs" then some "/programs"
  else none

/-- A primary page advertising the links of `twoLinks`. -/
def twoLinksPage : Page :=
  { emptyPage with findLink := fun c => Except.ok (twoLinks c) }

/-- C5 is false on the code: the candidate loops have no early exit.
Here the first stats candidate ("about") is fetched successfully, yet
the second ("facts") is still searched and fetched; likewise for the
college candidates. -/
theorem c5_counterexample :
    fetch_webpage upNet (absUrl "/about") = .ok (some "content") ∧
    statsScrapedI upNet twoLinksPage =
      .ok ([], [absUrl "/about", absUrl "/facts"]) ∧
    collegesScrapedI upNet twoLinksPage =
      .ok ([], [absUrl "/academics", absUrl "/programs"]) :=
  ⟨rfl, rfl, rfl⟩

/-- A fold of trace-extending steps appends the contribution of every
list element in order. -/
theorem foldlM_trace {α : Type}
    (step : α × List String → String → Except Exc (α × List String))
    (g : String → Option String) :
    ∀ l : List String,
      (∀ st f c, c ∈ l →
        ∃ a2, step (st, f) c = .ok (a2, f ++ ((g c).map absUrl).toList)) →
      ∀ st f, ∃ a2, l.foldlM step (st, f) =
        .ok (a2, f ++ l.filterMap (fun c => (g c).map absUrl)) := by
  intro l
  induction l with
  | nil => intro _ st f; exact ⟨st, by simp [pure, Except.pure]⟩
  | cons x rest ih =>
    intro h st f
    obtain ⟨a2, ha2⟩ := h st f x (by simp)
    obtain ⟨a3, ha3⟩ :=
      ih (fun st f c hc => h st f c (by simp [hc])) a2 (f ++ ((g x).map absUrl).toList)
    refine ⟨a3, ?_⟩
    simp only [List.foldlM, Bind.bind, Except.bind, ha2, ha3]
    cases hgx : g x with
    | none => simp [hgx, List.filterMap_cons]
    | some y => simp [hgx, List.filterMap_cons, List.append_assoc]

/-- One stats candidate extends the fetched-URL trace by its resolved
link, when present, whether or not the fetch succeeds. -/
theorem statsStep_trace (net : Net) (soup : Page) (c : String) (o : Option String)
    (h : soup.findLink c = .ok o) :
    ∀ (st : Dict String) (f : List String),
      ∃ s2, statsStep net soup (st, f) c = .ok (s2, f ++ (o.map absUrl).toList) := by
  intro st f
  unfold statsStep
  simp only [h, Bind.bind, Except.bind]
  match o with
  | none => exact ⟨st, by simp [pure, Except.pure]⟩
  | some href =>
    rcases hA : statsAttempt net st (absUrl href) with e | s
    · exact ⟨st, by simp [hA, pure, Except.pure]⟩
    · exact ⟨s, by simp [hA, pure, Except.pure]⟩

/-- One college candidate extends the fetched-URL trace likewise. -/
theorem collegesStep_trace (net : Net) (soup : Page) (c : String) (o : Option String)
    (h : soup.findLink c = .ok o) :
    ∀ (st : Dict Nat) (f : List String),
      ∃ s2, collegesStep net soup (st, f) c = .ok (s2, f ++ (o.map absUrl).toList) := by
  intro st f
  unfold collegesStep
  simp only [h, Bind.bind, Except.bind]
  match o with
  | none => exact ⟨st, by simp [pure, Except.pure]⟩
  | some href =>
    rcases hA : collegesAttempt net st (absUrl href) with e | s
    · exact ⟨st, by simp [hA, pure, Except.pure]⟩
    · exact ⟨s, by simp [hA, pure, Except.pure]⟩

/-- C5 amended: every candidate page whose link search finds a link is
attempted, in list order, regardless of whether an earlier candidate
was already fetched successfully; for stats, later pages only
contribute labels not already present. -/
theorem c5_every_linked_candidate_attempted (net : Net) (soup : Page)
    (lnk : String → Option String)
    (s1 s2 : List (String × String)) (ci : List CollegeItem)
    (hlk : ∀ c, soup.findLink c = .ok (lnk c))
    (hs1 : soup.statsM1 = .ok s1) (hs2 : soup.statsM2 = .ok s2)
    (hci : soup.collegeItems = .ok ci) :
    (∃ s, statsScrapedI net soup =
      .ok (s, statsCandidates.filterMap (fun c => (lnk c).map absUrl))) ∧
    (∃ s, collegesScrapedI net soup =
      .ok (s, collegeCandidates.filterMap (fun c => (lnk c).map absUrl))) := by
  constructor
  · obtain ⟨s, hs⟩ := foldlM_trace (statsStep net soup) lnk statsCandidates
      (fun st f c hc => statsStep_trace net soup c (lnk c) (hlk c) st f)
      (putStats s2 (putStats s1 [])) []
    refine ⟨s, ?_⟩
    unfold statsScrapedI
    simp only [hs1, hs2, Bind.bind, Except.bind]
    simpa using hs
  · obtain ⟨s, hs⟩ := foldlM_trace (collegesStep net soup) lnk collegeCandidates
      (fun st f c hc => collegesStep_trace net soup c (lnk c) (hlk c) st f)
      (ci.foldl processItem []) []
    refine ⟨s, ?_⟩
    unfold collegesScrapedI
    simp only [hci, Bind.bind, Except.bind]
    simpa using hs

/-- Witness for C5's amended statement at the two-link page. -/
theorem c5_witness :
    (∃ s, statsScrapedI upNet twoLinksPage =
      .ok (s, statsCandidates.filterMap (fun c => (twoLinks c).map absUrl))) ∧
    (∃ s, collegesScrapedI upNet twoLinksPage =
      .ok (s, collegeCandidates.filterMap (fun c => (twoLinks c).map absUrl))) :=
  c5_every_linked_candidate_attempted upNet twoLinksPage twoLinks
    [] [] [] (fun _ => rfl) rfl rfl rfl

-- Claim C3.

theorem FALLBACK_stats_keys_nodup : (dkeys FALLBACK_stats).Nodup := by decide

theorem FALLBACK_colleges_keys_nodup : (dkeys FALLBACK_colleges).Nodup := by decide

/-- The claim's formulation of the fallback flag, written from its
words for comparison with the code's computation: an OR across the
four fields of "this field's final value is identical to, or was
partially filled from, its fallback counterpart". -/
def usedFallbackSpec (d : ScrapeData) : Prop :=
  d.mission = FALLBACK_mission ∨
  d.values = FALLBACK_values ∨
  (∃ kv ∈ FALLBACK_stats, dget d.stats kv.1 = some kv.2) ∨
  (∃ kv ∈ FALLBACK_colleges, dget d.colleges kv.1 = some kv.2)

/-- The computation on lines 418-421 agrees with the claim's OR rule
on every result value. -/
theorem usingFallbackCalc_iff (d : ScrapeData) :
    usingFallbackCalc d = true ↔ usedFallbackSpec d := by
  unfold usingFallbackCalc usedFallbackSpec
  simp only [Bool.or_eq_true, beq_iff_eq, List.any_eq_true, or_assoc]
  constructor
  · rintro (h | h | ⟨kv, hkv, h⟩ | ⟨kv, hkv, h⟩)
    · exact Or.inl h
    · exact Or.inr (Or.inl h)
    · exact Or.inr (Or.inr (Or.inl ⟨kv, hkv, by
        rw [h, dget_of_mem_nodup FALLBACK_stats_keys_nodup hkv]⟩))
    · exact Or.inr (Or.inr (Or.inr ⟨kv, hkv, by
        rw [h, dget_of_mem_nodup FALLBACK_colleges_keys_nodup hkv]⟩))
  · rintro (h | h | ⟨kv, hkv, h⟩ | ⟨kv, hkv, h⟩)
    · exact Or.inl h
    · exact Or.inr (Or.inl h)
    · exact Or.inr (Or.inr (Or.inl ⟨kv, hkv, by
        rw [h, dget_of_mem_nodup FALLBACK_stats_keys_nodup hkv]⟩))
    · exact Or.inr (Or.inr (Or.inr ⟨kv, hkv, by
        rw [h, dget_of_mem_nodup FALLBACK_colleges_keys_nodup hkv]⟩))

/-- On the success path the returned flag is the line 418-421
computation of the returned data. -/
theorem scrapeCore_flag (net : Net) (r : ScrapeData × Bool)
    (h : scrapeCore net = .ok r) : r.2 = usingFallbackCalc r.1 := by
  unfold scrapeCore at h
  rcases hf : fetch_webpage net BASE_URL with e | oc
  · rw [hf] at h
    simp [Bind.bind, Except.bind] at h
  · rw [hf] at h
    simp only [Bind.bind, Except.bind] at h
    match oc with
    | none =>
      simp only [pure, Except.pure, Except.ok.injEq] at h
      rw [← h]
      simp [usingFallbackCalc, FALLBACK_DATA]
    | some c =>
      simp only at h
      split at h
      · simp only [pure, Except.pure, Except.ok.injEq] at h
        rw [← h]
        simp [usingFallbackCalc, FALLBACK_DATA]
      · rcases hm : extract_mission net (net.pageOf c) FALLBACK_mission with e | m <;>
          rw [hm] at h
        · simp at h
        · rcases hv : extract_values net (net.pageOf c) FALLBACK_values with e | v <;>
            rw [hv] at h
          · simp at h
          · rcases hs : extract_stats net (net.pageOf c) FALLBACK_stats with e | s <;>
              rw [hs] at h
            · simp at h
            · rcases hc : extract_colleges net (net.pageOf c) FALLBACK_colleges with e | cg <;>
                rw [hc] at h
              · simp at h
              · simp only [pure, Except.pure, Except.ok.injEq] at h
                rw [← h]

/-- C3: the `used_fallback` boolean returned by `scrape_jbu_data`
holds exactly when the claim's OR rule holds of the returned data —
mission or values equal to their fallback, or some fallback stats key
mapping to its fallback value, or some fallback college name mapping
to its fallback count. -/
theorem c3_used_fallback_or_rule (net : Net) :
    (scrape_jbu_data net).2 = true ↔ usedFallbackSpec (scrape_jbu_data net).1 := by
  unfold scrape_jbu_data
  rcases hsc : scrapeCore net with e | r
  · simp only
    constructor
    · intro _
      exact Or.inl rfl
    · intro _
      trivial
  · simp only
    rw [scrapeCore_flag net r hsc]
    exact usingFallbackCalc_iff r.1

-- Merge lemmas shared by the mapping claims.

theorem dkeys_map_value {V W : Type} (g : String × V → W) (l : Dict V) :
    dkeys (l.map fun kv => (kv.1, g kv)) = dkeys l := by
  induction l with
  | nil => rfl
  | cons kv rest ih => simp only [List.map_cons, dkeys] at ih ⊢; rw [ih]

theorem dmem_map_value {V W : Type} (g : String × V → W) (l : Dict V) (k : String) :
    dmem (l.map fun kv => (kv.1, g kv)) k = dmem l k := by
  induction l with
  | nil => rfl
  | cons kv rest ih =>
    simp only [List.map_cons, dmem]
    split <;> simp_all

/-- Writing fresh keys with `dset` in a fold just appends the
transformed entries. -/
theorem foldl_dset_append {V : Type} (g : String × V → V) :
    ∀ (l init : Dict V), (dkeys l).Nodup →
      (∀ kv ∈ l, dmem init kv.1 = false) →
      l.foldl (fun acc kv => dset acc kv.1 (g kv)) init
        = init ++ l.map (fun kv => (kv.1, g kv)) := by
  intro l
  induction l with
  | nil => intro init _ _; simp
  | cons kv rest ih =>
    intro init hnd hdisj
    simp only [dkeys, List.map_cons, List.nodup_cons] at hnd
    simp only [List.foldl_cons, List.map_cons]
    rw [dset_of_dmem_false (hdisj kv (by simp))]
    rw [ih (init ++ [(kv.1, g kv)]) hnd.2 ?_]
    · simp
    · intro kv2 h2
      rw [dmem_append]
      have hne : kv.1 ≠ kv2.1 := by
        intro he
        exact hnd.1 (he ▸ List.mem_map_of_mem Prod.fst h2)
      simp [hdisj kv2 (by simp [h2]), dmem, hne]

/-- Adding only absent keys over disjoint fresh entries appends them
all. -/
theorem foldl_addAbsent_eq {V : Type} :
    ∀ (l init : Dict V), (dkeys l).Nodup →
      (∀ kv ∈ l, dmem init kv.1 = false) →
      l.foldl (fun acc kv => if dmem acc kv.1 then acc else dset acc kv.1 kv.2) init
        = init ++ l := by
  intro l
  induction l with
  | nil => intro init _ _; simp
  | cons kv rest ih =>
    intro init hnd hdisj
    simp only [dkeys, List.map_cons, List.nodup_cons] at hnd
    simp only [List.foldl_cons, hdisj kv (by simp), Bool.false_eq_true, if_false]
    rw [dset_of_dmem_false (hdisj kv (by simp))]
    rw [ih (init ++ [(kv.1, kv.2)]) hnd.2 ?_]
    · simp
    · intro kv2 h2
      rw [dmem_append]
      have hne : kv.1 ≠ kv2.1 := by
        intro he
        exact hnd.1 (he ▸ List.mem_map_of_mem Prod.fst h2)
      simp [hdisj kv2 (by simp [h2]), dmem, hne]

/-- Adding only absent keys never changes the value of a key already
bound. -/
theorem foldl_addAbsent_preserve {V : Type} :
    ∀ (l : Dict V) (acc : Dict V) (k : String) (v : V), dget acc k = some v →
      dget (l.foldl (fun acc kv => if dmem acc kv.1 then acc else dset acc kv.1 kv.2) acc) k
        = some v := by
  intro l
  induction l with
  | nil => intro acc k v h; exact h
  | cons kv rest ih =>
    intro acc k v h
    simp only [List.foldl_cons]
    cases hm : dmem acc kv.1 with
    | true => simp only [hm, if_true]; exact ih acc k v h
    | false =>
      simp only [hm, Bool.false_eq_true, if_false]
      rw [dset_of_dmem_false hm]
      exact ih _ k v (dget_append_left h)

/-- An entry of the source list whose key is absent from the
accumulator ends up bound to its own value. -/
theorem foldl_addAbsent_new {V : Type} :
    ∀ (l : Dict V) (acc : Dict V) (kv : String × V), (dkeys l).Nodup → kv ∈ l →
      dmem acc kv.1 = false →
      dget (l.foldl (fun acc kv => if dmem acc kv.1 then acc else dset acc kv.1 kv.2) acc) kv.1
        = some kv.2 := by
  intro l
  induction l with
  | nil => intro acc kv _ hmem _; simp at hmem
  | cons kv0 rest ih =>
    intro acc kv hnd hmem hacc
    simp only [dkeys, List.map_cons, List.nodup_cons] at hnd
    simp only [List.foldl_cons]
    rcases List.mem_cons.mp hmem with he | hr
    · subst he
      simp only [hacc, Bool.false_eq_true, if_false]
      rw [dset_of_dmem_false hacc]
      refine foldl_addAbsent_preserve rest _ kv.1 kv.2 ?_
      rw [dget_append_right hacc]
      simp [dget]
    · have hne : kv0.1 ≠ kv.1 := by
        intro he
        exact hnd.1 (he ▸ List.mem_map_of_mem Prod.fst hr)
      cases hm : dmem acc kv0.1 with
      | true => simp only [hm, if_true]; exact ih acc kv hnd.2 hr hacc
      | false =>
        simp only [hm, Bool.false_eq_true, if_false]
        rw [dset_of_dmem_false hm]
        refine ih _ kv hnd.2 hr ?_
        rw [dmem_append, hacc]
        simp [dmem, hne]

-- Claim C2.

/-- C2: in the merged stats, every fallback label carries the
extracted value when the label was extracted and the fallback value
otherwise, and every extracted label outside the fallback set is
present with its extracted value unchanged. -/
theorem c2_stats_merge_law (stats fallback : Dict String)
    (hfb : (dkeys fallback).Nodup) (hst : (dkeys stats).Nodup) :
    (∀ kv ∈ fallback,
      dget (finalStats stats fallback) kv.1 = some ((dget stats kv.1).getD kv.2)) ∧
    (∀ kv ∈ stats, dmem fallback kv.1 = false →
      dget (finalStats stats fallback) kv.1 = some kv.2) := by
  have hphase1 :
      fallback.foldl (fun acc kv => dset acc kv.1 ((dget stats kv.1).getD kv.2)) []
        = fallback.map (fun kv => (kv.1, (dget stats kv.1).getD kv.2)) := by
    rw [foldl_dset_append (fun kv => (dget stats kv.1).getD kv.2) fallback [] hfb
      (fun kv _ => rfl)]
    simp
  constructor
  · intro kv hkv
    unfold finalStats
    rw [hphase1]
    apply foldl_addAbsent_preserve
    have hnd2 := (dkeys_map_value (fun kv => (dget stats kv.1).getD kv.2) fallback).symm ▸ hfb
    exact dget_of_mem_nodup hnd2
      (List.mem_map_of_mem (fun kv => (kv.1, (dget stats kv.1).getD kv.2)) hkv)
  · intro kv hkv hnotfb
    unfold finalStats
    rw [hphase1]
    refine foldl_addAbsent_new stats _ kv hst hkv ?_
    rw [dmem_map_value]
    exact hnotfb

/-- Witness for C2 at small concrete dicts: the fallback key
"Total Enrollment" was extracted and keeps its extracted value, the
fallback key "Graduate Programs" was not and takes the fallback value,
and the extracted label "Campus Size" outside the fallback set is
preserved. -/
theorem c2_witness :
    (∀ kv ∈ FALLBACK_stats,
      dget (finalStats [("Total Enrollment", "9,999"), ("Campus Size", "200 acres")]
        FALLBACK_stats) kv.1
        = some ((dget [("Total Enrollment", "9,999"), ("Campus Size", "200 acres")] kv.1).getD
            kv.2)) ∧
    (∀ kv ∈ ([("Total Enrollment", "9,999"), ("Campus Size", "200 acres")] : Dict String),
      dmem FALLBACK_stats kv.1 = false →
      dget (finalStats [("Total Enrollment", "9,999"), ("Campus Size", "200 acres")]
        FALLBACK_stats) kv.1 = some kv.2) :=
  c2_stats_merge_law [("Total Enrollment", "9,999"), ("Campus Size", "200 acres")]
    FALLBACK_stats FALLBACK_stats_keys_nodup (by decide)

-- Claim C9.

/-- The merge of an empty extraction with a (unique-key) fallback dict
is the fallback dict itself, entry for entry. -/
theorem finalColleges_empty (fallback : Dict Nat)
    (hfb : (dkeys fallback).Nodup) : finalColleges [] fallback = fallback := by
  unfold finalColleges
  simp only [List.foldl_nil]
  rw [foldl_addAbsent_eq fallback [] hfb (fun kv _ => rfl)]
  simp only [List.nil_append]
  split <;> rfl

/-- C9: when the extraction phase of `extract_colleges` yields zero
entries, the returned mapping is exactly the fallback mapping. -/
theorem c9_empty_extraction_full_fallback (net : Net) (soup : Page)
    (fallback : Dict Nat) (fetched : List String)
    (h : collegesScrapedI net soup = .ok ([], fetched))
    (hfb : (dkeys fallback).Nodup) :
    extract_colleges net soup fallback = .ok fallback := by
  unfold extract_colleges extract_collegesI
  simp [h, Bind.bind, Except.bind, pure, Except.pure, Except.map,
    finalColleges_empty fallback hfb]

/-- Witness for C9 at a page with no college cues at all. -/
theorem c9_witness :
    extract_colleges downNet emptyPage FALLBACK_colleges = .ok FALLBACK_colleges :=
  c9_empty_extraction_full_fallback downNet emptyPage FALLBACK_colleges [] rfl
    FALLBACK_colleges_keys_nodup

-- Claim C10.

/-- A candidate iteration whose link search finds nothing leaves the
state untouched. -/
theorem collegesStep_noLink (net : Net) (soup : Page) (c : String)
    (h : soup.findLink c = .ok none) (st : Dict Nat × List String) :
    collegesStep net soup st c = .ok st := by
  unfold collegesStep
  simp [h, Bind.bind, Except.bind, pure, Except.pure]

/-- C10: an organizational unit found with a name but with both count
searches failing is recorded with count 0, and this extracted 0
overrides a nonzero fallback count for the same name in the final
mapping. -/
theorem c10_zero_count_overrides_fallback (net : Net) (soup : Page)
    (fallback : Dict Nat) (it : CollegeItem) (n : String) (k : Nat)
    (hname : it.nameElem = some n) (hne : n ≠ "")
    (hpl : it.programsList = none) (htm : it.textMatch = none)
    (hitems : soup.collegeItems = .ok [it])
    (hlk : ∀ c ∈ collegeCandidates, soup.findLink c = .ok none)
    (hfbk : dget fallback n = some k) (hk : k ≠ 0) :
    itemCount it = 0 ∧
    collegesScrapedI net soup = .ok ([(n, 0)], []) ∧
    extract_colleges net soup fallback = .ok (finalColleges [(n, 0)] fallback) ∧
    dget (finalColleges [(n, 0)] fallback) n = some 0 := by
  have hcount : itemCount it = 0 := by simp [itemCount, hpl, htm]
  have hproc : processItem [] it = [(n, 0)] := by
    simp [processItem, hname, hne, hcount, dget, dset, dmem]
  have hfold : ∀ st : Dict Nat × List String,
      collegeCandidates.foldlM (collegesStep net soup) st = .ok st := by
    intro st
    simp only [collegeCandidates, List.foldlM,
      collegesStep_noLink net soup "academics" (hlk "academics" (by simp [collegeCandidates])),
      collegesStep_noLink net soup "programs" (hlk "programs" (by simp [collegeCandidates])),
      collegesStep_noLink net soup "colleges" (hlk "colleges" (by simp [collegeCandidates])),
      collegesStep_noLink net soup "departments"
        (hlk "departments" (by simp [collegeCandidates])),
      Bind.bind, Except.bind, pure, Except.pure]
  have hscr : collegesScrapedI net soup = .ok ([(n, 0)], []) := by
    unfold collegesScrapedI
    simp only [hitems, Bind.bind, Except.bind, List.foldl_cons, List.foldl_nil, hproc]
    exact hfold ([(n, 0)], [])
  have hphase1 : ([(n, 0)] : Dict Nat).foldl (fun acc kv => dset acc kv.1 kv.2) []
      = [(n, 0)] := by
    simp [dset, dmem]
  have hgetfc : dget (finalColleges [(n, 0)] fallback) n = some 0 := by
    unfold finalColleges
    simp only [hphase1]
    have hpres := foldl_addAbsent_preserve fallback [(n, 0)] n 0 (by simp [dget])
    rcases hfc : fallback.foldl
        (fun acc kv => if dmem acc kv.1 then acc else dset acc kv.1 kv.2) [(n, 0)]
      with _ | ⟨x, xs⟩
    · rw [hfc] at hpres
      simp [dget] at hpres
    · rw [hfc] at hpres
      rw [hfc]
      simpa using hpres
  refine ⟨hcount, hscr, ?_, hgetfc⟩
  unfold extract_colleges extract_collegesI
  simp [hscr, Bind.bind, Except.bind, pure, Except.pure, Except.map]

/-- A primary page listing exactly one college item, with a name but
no recoverable program count. -/
def oneCollegePage : Page :=
  { emptyPage with collegeItems := .ok [⟨some "College of Business", none, none⟩] }

/-- Witness for C10: "College of Business" is extracted with count 0,
overriding its fallback count 12. -/
theorem c10_witness :
    itemCount ⟨some "College of Business", none, none⟩ = 0 ∧
    collegesScrapedI downNet oneCollegePage = .ok ([("College of Business", 0)], []) ∧
    extract_colleges downNet oneCollegePage FALLBACK_colleges =
      .ok (finalColleges [("College of Business", 0)] FALLBACK_colleges) ∧
    dget (finalColleges [("College of Business", 0)] FALLBACK_colleges)
      "College of Business" = some 0 :=
  c10_zero_count_overrides_fallback downNet oneCollegePage FALLBACK_colleges
    ⟨some "College of Business", none, none⟩ "College of Business" 12
    rfl (by decide) rfl rfl rfl (fun _ _ => rfl) (by decide) (by decide)
